import Mathlib

/-!
Verification development for the "Foto Edition Conecta Imóveis" photo
batch-editing application.  The definitions below are a shallow embedding of
the application's AI-orchestration layer (retry with backoff, quota circuit
breaker, privacy-detection scheduler), its compositing pipeline and its batch
exporter, translated from `src/services/geminiService.ts`,
`src/services/imageUtils.ts`, `App.tsx`, `types.ts` and `constants.ts`.
External browser/library primitives (canvas CSS filters, text rasterisation,
image decoding) are taken as function parameters of the pipeline; everything
the repository itself computes is embedded concretely.
-/

namespace FotoEdition

/-! ## Data model (`types.ts`) -/

/-- `Adjustments` from `types.ts`: the six tone parameters, warmth, the text
watermark, the optional overlay element and the privacy-blur flag.  Numeric
JS values are modelled as rationals. -/
structure Adjustments where
  brightness : ℚ
  contrast : ℚ
  saturation : ℚ
  blur : ℚ
  sepia : ℚ
  grayscale : ℚ
  warmth : ℚ
  watermark : String
  overlayImage : Option String
  overlayX : ℚ
  overlayY : ℚ
  overlayScale : ℚ
  overlayOpacity : ℚ
  privacyBlur : Bool
deriving Repr, DecidableEq

/-- `BoundingBox` from `types.ts`: integer bounds on the 0–1000 normalized
scale (the remote model is asked for integers; we allow any `Int`). -/
structure BoundingBox where
  ymin : Int
  xmin : Int
  ymax : Int
  xmax : Int
deriving Repr, DecidableEq

/-- `ImageFile` from `types.ts`.  `privacyRegions?: BoundingBox[]` is an
optional field: `none` models the *absent* (undetected) state, `some []`
models "detection ran, nothing found". -/
structure ImageFile where
  id : String
  originalUrl : String
  previewUrl : String
  name : String
  type : String
  adjustments : Adjustments
  privacyRegions : Option (List BoundingBox)
deriving Repr, DecidableEq

/-! ## ResilientInvoker: `retryWithBackoff` (`geminiService.ts` lines 23–40) -/

/-- The shape of a caught JS error as inspected by `retryWithBackoff`:
an optional `status`, an optional numeric `code` and a message string. -/
structure JsError where
  status : Option Int
  code : Option Int
  message : String
deriving Repr, DecidableEq

/-- `String.prototype.includes`: substring containment. -/
def strIncludes (s pat : String) : Bool :=
  decide (pat.toList <:+: s.toList)

/-- The quota-exhaustion classification from line 27 of `geminiService.ts`:
`error?.status === 429 || error?.code === 429 ||
 error.message.includes('429') || error.message.includes('Quota')`. -/
def isRateLimit (e : JsError) : Bool :=
  e.status == some 429 || e.code == some 429 ||
    strIncludes e.message "429" || strIncludes e.message "Quota"

/-- Outcome of a `retryWithBackoff` invocation: a value, the distinct
`GeminiQuotaError`, or the underlying error propagated unchanged. -/
inductive RetryResult (T : Type) where
  | ok : T → RetryResult T
  | quotaError : RetryResult T
  | err : JsError → RetryResult T
deriving Repr, DecidableEq

/-- Observable trace of a `retryWithBackoff` run: its result, how many times
the wrapped operation was attempted, and the list of delays (ms) awaited
between attempts, in order. -/
structure RunTrace (T : Type) where
  result : RetryResult T
  attempts : Nat
  delays : List Nat
deriving Repr, DecidableEq

/-- `retryWithBackoff(fn, retries = 2, delay = 2000)` from
`geminiService.ts` lines 23–40.  The wrapped operation is modelled as a
function of the attempt index (attempt 0 is the initial call).  On a
rate-limit-classified failure with retries left, the current `delay` is
awaited and the call recurses with `retries - 1` and `delay * 2`; with no
retries left it raises `GeminiQuotaError`; a non-rate-limit failure
propagates unchanged. -/
def retryWithBackoff {T : Type} (fn : Nat → Except JsError T) :
    (retries : Nat) → (delay : Nat) → (attempt : Nat) → RunTrace T
  | retries, delay, attempt =>
    match fn attempt with
    | Except.ok v => ⟨RetryResult.ok v, 1, []⟩
    | Except.error e =>
      if isRateLimit e then
        match retries with
        | r + 1 =>
          let rest := retryWithBackoff fn r (delay * 2) (attempt + 1)
          ⟨rest.result, rest.attempts + 1, delay :: rest.delays⟩
        | 0 => ⟨RetryResult.quotaError, 1, []⟩
      else ⟨RetryResult.err e, 1, []⟩

/-! ## PrivacyDetectionScheduler: candidate selection (`App.tsx`) -/

/-- Candidate selection from the `checkPrivacy` effect (`App.tsx`):
`images.filter(img => selectedImageIds.has(img.id) &&
img.adjustments.privacyBlur && (!img.privacyRegions))`.  In JS an empty
array is truthy, so `!img.privacyRegions` is true exactly for the
undefined/null (absent) state, modelled as `Option.isNone`. -/
def needsDetection (selectedIds : List String) (images : List ImageFile) :
    List ImageFile :=
  images.filter fun img =>
    selectedIds.contains img.id && img.adjustments.privacyBlur &&
      img.privacyRegions.isNone

/-! ## Claim theorems C1, C2 -/

/-- Claim C1: for an operation failing on every call with a
quota-classified error, `retryWithBackoff` with its defaults (2 retries,
2000ms base delay) makes exactly 3 attempts, awaiting 2000ms before the
second and 4000ms before the third, then raises the distinct
`GeminiQuotaError`; a failure not classified as quota exhaustion propagates
immediately and unchanged, with a single attempt and no delay. -/
theorem retryWithBackoff_defaults_spec {T : Type} :
    (∀ (fn : Nat → Except JsError T) (errs : Nat → JsError),
      (∀ n, fn n = Except.error (errs n)) →
      (∀ n, isRateLimit (errs n) = true) →
      retryWithBackoff fn 2 2000 0 =
        ⟨RetryResult.quotaError, 3, [2000, 4000]⟩) ∧
    (∀ (fn : Nat → Except JsError T) (e : JsError),
      fn 0 = Except.error e → isRateLimit e = false →
      retryWithBackoff fn 2 2000 0 = ⟨RetryResult.err e, 1, []⟩) := by
  constructor
  · intro fn errs hfail hrate
    rw [retryWithBackoff, hfail 0, retryWithBackoff, hfail 1,
      retryWithBackoff, hfail 2]
    simp [hrate 0, hrate 1, hrate 2]
  · intro fn e hfail hclass
    rw [retryWithBackoff, hfail]
    simp [hclass]

/-- Witness for C1: a concrete always-429 operation and a concrete
non-quota failure, instantiating `retryWithBackoff_defaults_spec`. -/
theorem retryWithBackoff_defaults_spec_witness :
    retryWithBackoff (T := Nat)
        (fun _ => Except.error ⟨some 429, none, "quota"⟩) 2 2000 0 =
      ⟨RetryResult.quotaError, 3, [2000, 4000]⟩ ∧
    retryWithBackoff (T := Nat)
        (fun _ => Except.error ⟨none, none, "boom"⟩) 2 2000 0 =
      ⟨RetryResult.err ⟨none, none, "boom"⟩, 1, []⟩ :=
  by
  have hq : isRateLimit ⟨some 429, none, "quota"⟩ = true := by decide
  have hb : isRateLimit ⟨none, none, "boom"⟩ = false := by decide
  exact ⟨retryWithBackoff_defaults_spec.1
      (fun _ => Except.error ⟨some 429, none, "quota"⟩)
      (fun _ => ⟨some 429, none, "quota"⟩) (fun _ => rfl) (fun _ => hq),
    retryWithBackoff_defaults_spec.2
      (fun _ => Except.error ⟨none, none, "boom"⟩)
      ⟨none, none, "boom"⟩ rfl hb⟩

/-- Claim C2: the detection candidates are exactly the images that are
selected, have privacy-blur enabled and have absent (`none`) region state;
in particular an image whose region state is the empty set (`some []`) is
never a candidate, and one with absent state, privacy-blur on and selected
always is. -/
theorem needsDetection_mem_iff (sel : List String) (images : List ImageFile)
    (img : ImageFile) :
    img ∈ needsDetection sel images ↔
      img ∈ images ∧ sel.contains img.id = true ∧
        img.adjustments.privacyBlur = true ∧ img.privacyRegions = none := by
  simp [needsDetection, List.mem_filter, Option.isNone_iff_eq_none,
    and_assoc]

/-! ## PrivacyDetectionScheduler: the `checkPrivacy` processing loop
(`App.tsx`).  The remote detection is modelled by an oracle
`detect : ImageFile → DetectOutcome` giving, per candidate, what
`detectPrivacyObjects` (together with the surrounding fetch) would do. -/

/-- Per-candidate outcome of the detection step inside the loop:
`boxes bs` — `detectPrivacyObjects` resolved with a (possibly empty) region
list; `nullResult` — it resolved with `null` (a non-quota remote failure it
swallowed); `quotaError` — it threw `GeminiQuotaError`; `otherError` — some
other exception was thrown (e.g. by the fetch of the source bytes). -/
inductive DetectOutcome where
  | boxes : List BoundingBox → DetectOutcome
  | nullResult : DetectOutcome
  | quotaError : DetectOutcome
  | otherError : DetectOutcome
deriving Repr, DecidableEq

/-- The scheduler-relevant mutable state of `App`: the image list and the
circuit-breaker timestamp `quotaCooldown` (ms). -/
structure SchedState where
  images : List ImageFile
  quotaCooldown : Int
deriving Repr, DecidableEq

/-- The `setImages(prev => prev.map(...))` update inside the loop: set the
region state of the image with the given id to the returned set. -/
def setRegions (images : List ImageFile) (id : String)
    (boxes : List BoundingBox) : List ImageFile :=
  images.map fun i =>
    if i.id == id then { i with privacyRegions := some boxes } else i

/-- Queue construction from `App.tsx`:
`const prio = needsDetection.find(img => img.id === viewImageId);
 const queue = prio ? [prio, ...needsDetection.filter(i => i.id !== viewImageId)]
                    : needsDetection;` -/
def buildQueue (needs : List ImageFile) (viewId : Option String) :
    List ImageFile :=
  match needs.find? (fun img => viewId == some img.id) with
  | some prio => prio :: needs.filter (fun i => !(viewId == some i.id))
  | none => needs

/-- The sequential `for (const img of queue)` loop of `checkPrivacy`:
re-check the breaker (`if (Date.now() < quotaCooldown) break`), run
detection; on a non-null result store the regions; on `GeminiQuotaError`
set `quotaCooldown = now + 60000` and break; on any other failure leave the
image untouched and continue.  `now` is the (constant, single-threaded)
current time of the run. -/
def runQueue (detect : ImageFile → DetectOutcome) (now : Int) :
    List ImageFile → SchedState → SchedState
  | [], st => st
  | img :: rest, st =>
    if now < st.quotaCooldown then st
    else
      match detect img with
      | DetectOutcome.boxes bs =>
        runQueue detect now rest ⟨setRegions st.images img.id bs, st.quotaCooldown⟩
      | DetectOutcome.nullResult => runQueue detect now rest st
      | DetectOutcome.otherError => runQueue detect now rest st
      | DetectOutcome.quotaError => ⟨st.images, now + 60000⟩

/-! ## Claim theorem C3 -/

/-- Helper: `find?` over a list whose prefix rejects the predicate returns
the first accepting element. -/
theorem aux_find_middle {α : Type} {p : α → Bool} :
    ∀ (l1 : List α) (x : α) (l2 : List α),
      (∀ i ∈ l1, p i = false) → p x = true →
      (l1 ++ x :: l2).find? p = some x := by
  intro l1 x l2
  induction l1 with
  | nil =>
    intro _ hx
    exact List.find?_cons_of_pos _ hx
  | cons a l1 ih =>
    intro h1 hx
    rw [List.cons_append, List.find?_cons_of_neg _ (by simp [h1 a (by simp)])]
    exact ih (fun i hi => h1 i (List.mem_cons_of_mem a hi)) hx

/-- Helper: filtering keeps a kept prefix and suffix and drops the one
rejected middle element. -/
theorem aux_filter_middle {α : Type} {p : α → Bool}
    (l1 : List α) (x : α) (l2 : List α)
    (h1 : ∀ i ∈ l1, p i = true) (hx : p x = false)
    (h2 : ∀ i ∈ l2, p i = true) :
    (l1 ++ x :: l2).filter p = l1 ++ l2 := by
  rw [List.filter_append, List.filter_eq_self.mpr h1,
    List.filter_cons_of_neg (by simp [hx]), List.filter_eq_self.mpr h2]

/-- Claim C3: (1) the viewed image, when it is a candidate, heads the queue
and the remaining candidates keep their original order; (2) if every
candidate before `bad` succeeds and `bad`'s detection raises
`GeminiQuotaError`, the run stores nothing past the successful prefix, trips
the breaker to `now + 60000` and terminates — `bad` and every remaining
candidate keep their region state; (3) any other per-candidate failure
leaves the state untouched for that candidate and the run continues. -/
theorem checkPrivacy_loop_spec :
    (∀ (l1 l2 : List ImageFile) (img : ImageFile) (v : String),
      img.id = v → (∀ i ∈ l1 ++ l2, i.id ≠ v) →
      buildQueue (l1 ++ img :: l2) (some v) = img :: (l1 ++ l2)) ∧
    (∀ (detect : ImageFile → DetectOutcome) (now : Int) (st : SchedState)
        (q1 : List ImageFile) (bad : ImageFile) (q2 : List ImageFile),
      st.quotaCooldown ≤ now →
      (∀ i ∈ q1, ∃ bs, detect i = DetectOutcome.boxes bs) →
      detect bad = DetectOutcome.quotaError →
      runQueue detect now (q1 ++ bad :: q2) st =
        ⟨(runQueue detect now q1 st).images, now + 60000⟩) ∧
    (∀ (detect : ImageFile → DetectOutcome) (now : Int) (st : SchedState)
        (img : ImageFile) (rest : List ImageFile),
      st.quotaCooldown ≤ now →
      (detect img = DetectOutcome.otherError ∨
        detect img = DetectOutcome.nullResult) →
      runQueue detect now (img :: rest) st = runQueue detect now rest st) := by
  refine ⟨?_, ?_, ?_⟩
  · intro l1 l2 img v hid hne
    have h1 : ∀ i ∈ l1, ((some v : Option String) == some i.id) = false :=
      fun i hi => by
        simp [Ne.symm (hne i (List.mem_append.mpr (Or.inl hi)))]
    have h2 : ∀ i ∈ l2, ((some v : Option String) == some i.id) = false :=
      fun i hi => by
        simp [Ne.symm (hne i (List.mem_append.mpr (Or.inr hi)))]
    have hx : ((some v : Option String) == some img.id) = true := by
      simp [hid]
    have hfind := aux_find_middle l1 img l2 h1 hx
    have hfilter := aux_filter_middle
      (p := fun i => !((some v : Option String) == some i.id)) l1 img l2
      (fun i hi => by simp only [h1 i hi, Bool.not_false])
      (by simp only [hx, Bool.not_true])
      (fun i hi => by simp only [h2 i hi, Bool.not_false])
    simp only [buildQueue, hfind, hfilter]
  · intro detect now st q1 bad q2 hcool hsucc hbad
    induction q1 generalizing st with
    | nil =>
      simp only [List.nil_append, runQueue, hbad]
      simp [not_lt.mpr hcool]
    | cons a q1 ih =>
      obtain ⟨bs, hbs⟩ := hsucc a (by simp)
      simp only [List.cons_append, runQueue, hbs, not_lt.mpr hcool, if_false]
      exact ih ⟨setRegions st.images a.id bs, st.quotaCooldown⟩ hcool
        fun i hi => hsucc i (List.mem_cons_of_mem a hi)
  · intro detect now st img rest hcool hfail
    rcases hfail with h | h <;>
      · simp only [runQueue, h]
        simp [not_lt.mpr hcool]

/-- Sample adjustment set used to instantiate claim theorems on concrete
data (tone parameters neutral, no overlay, whole-number overlay geometry so
concrete goals stay kernel-decidable). -/
def sampleAdj : Adjustments :=
  ⟨100, 100, 100, 0, 0, 0, 0, "", none, 0, 0, 1, 1, false⟩

/-- A sample image with privacy-blur enabled and absent region state. -/
def mkImg (id nm : String) : ImageFile :=
  ⟨id, "url_" ++ id, "purl_" ++ id, nm, "image/jpeg",
    { sampleAdj with privacyBlur := true }, none⟩

/-- Witness for C3: three concrete candidates (the viewed one listed
second), a detection oracle whose second processed image raises the quota
error; the queue puts the viewed image first, and the run trips the breaker
at the failing candidate leaving the remaining image untouched. -/
theorem checkPrivacy_loop_spec_witness :
    buildQueue [mkImg "a" "a.jpg", mkImg "b" "b.jpg", mkImg "c" "c.jpg"]
        (some "b") =
      [mkImg "b" "b.jpg", mkImg "a" "a.jpg", mkImg "c" "c.jpg"] ∧
    runQueue
        (fun i => if i.id == "a" then DetectOutcome.quotaError
          else DetectOutcome.boxes [])
        5000
        [mkImg "b" "b.jpg", mkImg "a" "a.jpg", mkImg "c" "c.jpg"]
        ⟨[mkImg "a" "a.jpg", mkImg "b" "b.jpg", mkImg "c" "c.jpg"], 0⟩ =
      ⟨(runQueue
          (fun i => if i.id == "a" then DetectOutcome.quotaError
            else DetectOutcome.boxes [])
          5000 [mkImg "b" "b.jpg"]
          ⟨[mkImg "a" "a.jpg", mkImg "b" "b.jpg", mkImg "c" "c.jpg"], 0⟩).images,
        65000⟩ ∧
    runQueue (fun _ => DetectOutcome.otherError) 5000
        [mkImg "a" "a.jpg", mkImg "c" "c.jpg"]
        ⟨[mkImg "a" "a.jpg", mkImg "c" "c.jpg"], 0⟩ =
      runQueue (fun _ => DetectOutcome.otherError) 5000 [mkImg "c" "c.jpg"]
        ⟨[mkImg "a" "a.jpg", mkImg "c" "c.jpg"], 0⟩ := by
  refine ⟨?_, ?_, ?_⟩
  · exact checkPrivacy_loop_spec.1 [mkImg "a" "a.jpg"] [mkImg "c" "c.jpg"]
      (mkImg "b" "b.jpg") "b" rfl (by decide)
  · exact checkPrivacy_loop_spec.2.1 _ 5000 _ [mkImg "b" "b.jpg"]
      (mkImg "a" "a.jpg") [mkImg "c" "c.jpg"] (by decide)
      (by intro i hi; simp at hi; subst hi; exact ⟨[], by decide⟩)
      (by decide)
  · exact checkPrivacy_loop_spec.2.2 _ 5000 _ (mkImg "a" "a.jpg")
      [mkImg "c" "c.jpg"] (by decide) (Or.inl rfl)

/-! ## BatchExporter: `handleBatchDownload` (`App.tsx`) and
`downloadAsZip` (`imageUtils.ts`).  Compositing of one image is a
possibly-failing external computation `composite : ImageFile → Except ε β`
(`processImageOnCanvas` driven by the browser); the exporter's own logic —
target selection, naming, sequential rendering with fail-fast, and the
single-file / archive decision — is embedded concretely. -/

/-- What `handleBatchDownload` delivers: nothing (no target), one named
downloadable file, one archive holding one named entry per processed image
(`downloadAsZip` adds `zip.file(name, blob)` per file), or the generic
batch failure (`alert("Erro durante o download em lote.")`). -/
inductive Delivery (β : Type) where
  | nothing : Delivery β
  | single : String → β → Delivery β
  | zipArchive : List (String × β) → Delivery β
  | failure : Delivery β
deriving Repr, DecidableEq

/-- The render loop of `handleBatchDownload`: process targets in order,
naming each deliverable `edited_` + the image's original name; the first
compositing failure aborts with that error and no partial list. -/
def renderAll {β ε : Type} (composite : ImageFile → Except ε β) :
    List ImageFile → Except ε (List (String × β))
  | [] => Except.ok []
  | img :: rest =>
    match composite img with
    | Except.error e => Except.error e
    | Except.ok b =>
      match renderAll composite rest with
      | Except.error e => Except.error e
      | Except.ok files => Except.ok (("edited_" ++ img.name, b) :: files)

/-- Target selection of `handleBatchDownload`:
`const targetIds = selectedImageIds.size > 0 ? Array.from(selectedImageIds)
   : images.map(i => i.id);
 const targets = images.filter(i => targetIds.includes(i.id));` -/
def targetsOf (images : List ImageFile) (selectedIds : List String) :
    List ImageFile :=
  let targetIds := if selectedIds.isEmpty then images.map (fun i => i.id)
    else selectedIds
  images.filter fun i => targetIds.contains i.id

/-- `handleBatchDownload` from `App.tsx`: render every target; on any
failure surface the generic batch failure; deliver a single file directly
and more than one as a single archive. -/
def handleBatchDownload {β ε : Type} (composite : ImageFile → Except ε β)
    (images : List ImageFile) (selectedIds : List String) : Delivery β :=
  if images.isEmpty then Delivery.nothing
  else
    match renderAll composite (targetsOf images selectedIds) with
    | Except.error _ => Delivery.failure
    | Except.ok [] => Delivery.nothing
    | Except.ok [f] => Delivery.single f.1 f.2
    | Except.ok (f :: g :: fs) => Delivery.zipArchive (f :: g :: fs)

/-! ## Claim theorem C4 -/

/-- Helper: when every target composites successfully, `renderAll` succeeds
and produces exactly one deliverable per image, named `edited_` + the
original name, in order. -/
theorem aux_renderAll_ok {β ε : Type} (composite : ImageFile → Except ε β) :
    ∀ (l : List ImageFile), (∀ i ∈ l, ∃ b, composite i = Except.ok b) →
      ∃ files, renderAll composite l = Except.ok files ∧
        files.map Prod.fst = l.map (fun i => "edited_" ++ i.name) ∧
        files.length = l.length := by
  intro l
  induction l with
  | nil => exact fun _ => ⟨[], rfl, rfl, rfl⟩
  | cons img rest ih =>
    intro h
    obtain ⟨b, hb⟩ := h img (by simp)
    obtain ⟨files, hf, hnames, hlen⟩ :=
      ih fun i hi => h i (List.mem_cons_of_mem img hi)
    refine ⟨("edited_" ++ img.name, b) :: files, ?_, ?_, ?_⟩
    · simp only [renderAll, hb, hf]
    · simp [hnames]
    · simp [hlen]

/-- Claim C4: every deliverable of a batch export is named `edited_` +
the image's original name; exactly one target yields a single downloadable
file, and more than one target yields a single archive with exactly one
entry per processed image carrying those names. -/
theorem handleBatchDownload_success_spec {β ε : Type}
    (composite : ImageFile → Except ε β) (images : List ImageFile)
    (sel : List String) :
    (∀ i ∈ targetsOf images sel, ∃ b, composite i = Except.ok b) →
    images ≠ [] →
    ((∀ t, targetsOf images sel = [t] →
        ∃ b, composite t = Except.ok b ∧
          handleBatchDownload composite images sel =
            Delivery.single ("edited_" ++ t.name) b) ∧
      (1 < (targetsOf images sel).length →
        ∃ files, handleBatchDownload composite images sel =
            Delivery.zipArchive files ∧
          files.map Prod.fst =
            (targetsOf images sel).map (fun i => "edited_" ++ i.name) ∧
          files.length = (targetsOf images sel).length)) := by
  intro hok himg
  have hne : images.isEmpty = false := by
    cases images with
    | nil => exact absurd rfl himg
    | cons a l => rfl
  constructor
  · intro t ht
    obtain ⟨b, hb⟩ := hok t (by rw [ht]; simp)
    refine ⟨b, hb, ?_⟩
    rw [handleBatchDownload, hne]
    simp only [Bool.false_eq_true, if_false, ht, renderAll, hb]
  · intro hlen
    obtain ⟨files, hf, hnames, hflen⟩ :=
      aux_renderAll_ok composite (targetsOf images sel) hok
    refine ⟨files, ?_, hnames, hflen⟩
    rw [handleBatchDownload, hne]
    simp only [Bool.false_eq_true, if_false, hf]
    match files, hflen with
    | f :: g :: fs, _ => rfl
    | [], h0 =>
      rw [← h0] at hlen
      simp at hlen
    | [f], h1 =>
      rw [← h1] at hlen
      simp at hlen

/-- A second sample image (no privacy blur, absent regions). -/
def imgPlain (id nm : String) : ImageFile :=
  ⟨id, "url_" ++ id, "purl_" ++ id, nm, "image/jpeg", sampleAdj, none⟩

/-- Witness for C4: a 1-image export delivers the single file
`edited_a.jpg`, and a 2-image export delivers one archive with exactly the
two entries `edited_a.jpg`, `edited_b.jpg`; both follow from
`handleBatchDownload_success_spec` with a compositor that renders every
image to its name. -/
theorem handleBatchDownload_success_spec_witness :
    handleBatchDownload (fun i => (Except.ok i.name : Except Unit String))
        [imgPlain "1" "a.jpg"] [] =
      Delivery.single "edited_a.jpg" "a.jpg" ∧
    handleBatchDownload (fun i => (Except.ok i.name : Except Unit String))
        [imgPlain "1" "a.jpg", imgPlain "2" "b.jpg"] [] =
      Delivery.zipArchive
        [("edited_a.jpg", "a.jpg"), ("edited_b.jpg", "b.jpg")] := by
  constructor
  · obtain ⟨b, hb, hd⟩ :=
      (handleBatchDownload_success_spec
          (fun i => (Except.ok i.name : Except Unit String))
          [imgPlain "1" "a.jpg"] []
          (fun i _ => ⟨i.name, rfl⟩) (by decide)).1
        (imgPlain "1" "a.jpg") (by decide)
    rw [hd]
    exact hd.symm.trans (by decide)
  · obtain ⟨files, hd, hnames, hlen⟩ :=
      (handleBatchDownload_success_spec
          (fun i => (Except.ok i.name : Except Unit String))
          [imgPlain "1" "a.jpg", imgPlain "2" "b.jpg"] []
          (fun i _ => ⟨i.name, rfl⟩) (by decide)).2 (by decide)
    rw [hd]
    exact hd.symm.trans (by decide)

/-! ## CompositingPipeline: `processImageOnCanvas` (`imageUtils.ts`).
Pixels are rgb triples of rationals on the 0–255 scale; a frame is a pixel
function over integer canvas coordinates.  The stages the repository
computes itself (redaction geometry and skipping, the warmth fill, stage
order and the filter-reset before late stages) are embedded concretely;
browser primitives (CSS filter application, overlay image decoding and
scaling, text rasterisation) are parameters of the pipeline function. -/

/-- An rgb pixel (0–255 scale, exact rational arithmetic). -/
@[ext]
structure Color where
  r : ℚ
  g : ℚ
  b : ℚ
deriving Repr, DecidableEq

/-- A frame: pixel value at each integer canvas coordinate (x, y). -/
def Frame : Type := Int → Int → Color

/-- `Math.floor((box.xmin / 1000) * canvas.width)` for integer inputs:
floor division by 1000 after scaling. -/
def regionX (box : BoundingBox) (cw : Int) : Int := (box.xmin * cw).fdiv 1000

/-- `Math.floor((box.ymin / 1000) * canvas.height)`. -/
def regionY (box : BoundingBox) (ch : Int) : Int := (box.ymin * ch).fdiv 1000

/-- `Math.floor(((box.xmax - box.xmin) / 1000) * canvas.width)`. -/
def regionW (box : BoundingBox) (cw : Int) : Int :=
  ((box.xmax - box.xmin) * cw).fdiv 1000

/-- `Math.floor(((box.ymax - box.ymin) / 1000) * canvas.height)`. -/
def regionH (box : BoundingBox) (ch : Int) : Int :=
  ((box.ymax - box.ymin) * ch).fdiv 1000

/-- One region of the privacy-blur pass: if the computed pixel width or
height is not positive the region is skipped (`if (w <= 0 || h <= 0)
return;`); otherwise the region is pixelated by painting, for each block
anchored at multiples of `bs` from the region origin while inside the
region, the block's top-left source pixel (read from the canvas as it was
before this region's fills) over the whole block. -/
def redactRegion (cw ch bs : Int) (frame : Frame) (box : BoundingBox) :
    Frame :=
  let x := regionX box cw
  let y := regionY box ch
  let w := regionW box cw
  let h := regionH box ch
  if w ≤ 0 ∨ h ≤ 0 then frame
  else fun qx qy =>
    let px := ((qx - x).fdiv bs) * bs
    let py := ((qy - y).fdiv bs) * bs
    if x ≤ qx ∧ y ≤ qy ∧ px < w ∧ py < h then frame (x + px) (y + py)
    else frame qx qy

/-- Stage 2 of `processImageOnCanvas` (privacy blurring): active only when
`adjustments.privacyBlur && privacyRegions.length > 0`; the regions are
processed in order, each reading the canvas left by its predecessors.
`blockSize = Math.max(10, Math.floor(canvas.width * 0.02))`, with the float
factor 0.02 embedded as 2/100. -/
def redactStage (adj : Adjustments) (regions : List BoundingBox)
    (cw ch : Int) (frame : Frame) : Frame :=
  if adj.privacyBlur = true ∧ 0 < regions.length then
    regions.foldl (redactRegion cw ch (max 10 ((2 * cw).fdiv 100))) frame
  else frame

/-- The six tone parameters that reach the CSS filter string
(`generateCssFilterString`): brightness, contrast, saturation, blur,
sepia, grayscale — and nothing else. -/
structure ToneParams where
  brightness : ℚ
  contrast : ℚ
  saturation : ℚ
  blur : ℚ
  sepia : ℚ
  grayscale : ℚ
deriving Repr, DecidableEq

/-- Projection of an adjustment set to the tone parameters used by the
filter stage. -/
def toneOf (adj : Adjustments) : ToneParams :=
  ⟨adj.brightness, adj.contrast, adj.saturation, adj.blur, adj.sepia,
    adj.grayscale⟩

/-- Canvas `source-over` compositing of a translucent fill
`rgba(fr, fg, fb, a)` over an opaque pixel: each output channel is
`fill * a + dst * (1 - a)`. -/
def sourceOverFill (fr fg fb a : ℚ) (c : Color) : Color :=
  ⟨fr * a + c.r * (1 - a), fg * a + c.g * (1 - a), fb * a + c.b * (1 - a)⟩

/-- Stage 4 of `processImageOnCanvas` (warmth overlay): when
`adjustments.warmth > 0`, fill the whole frame with
`rgba(255, 160, 0, warmth / 500)` (plain `fillRect`, default composite
operation, filter reset to `'none'`); otherwise the stage is skipped. -/
def warmthStage (warmth : ℚ) (frame : Frame) : Frame :=
  if 0 < warmth then
    fun qx qy => sourceOverFill 255 160 0 (warmth / 500) (frame qx qy)
  else frame

/-- The full `processImageOnCanvas` stage pipeline.
`cssFilter` is the browser's application of the CSS filter chain built by
`generateCssFilterString` (stage 3; it receives exactly the six tone
parameters), `drawOverlay` the decode-scale-composite of the overlay
element (stage 5, reached only when `adjustments.overlayImage` is set) and
`drawText` the rasterisation of the bottom-right text watermark (stage 6,
reached only when `adjustments.watermark` is nonempty; it receives the
watermark string and the canvas dimensions, after the filter has been reset
to `'none'`). -/
def processFrame (cssFilter : ToneParams → Frame → Frame)
    (drawOverlay : String → Adjustments → Frame → Frame)
    (drawText : String → Int → Int → Frame → Frame)
    (adj : Adjustments) (regions : List BoundingBox) (cw ch : Int)
    (base : Frame) : Frame :=
  let s2 := redactStage adj regions cw ch base
  let s3 := cssFilter (toneOf adj) s2
  let s4 := warmthStage adj.warmth s3
  let s5 := match adj.overlayImage with
    | none => s4
    | some src => drawOverlay src adj s4
  if adj.watermark ≠ "" then drawText adj.watermark cw ch s5 else s5

/-! ## Claim C6 (warmth stage) -/

/-- The fixed warm hue painted by the warmth stage. -/
def warmHue : Color := ⟨255, 160, 0⟩

/-- Modelled from the spec's words for comparison: a *flat tint* of `hue`
over a pixel at opacity `a` — every pixel moved by the same uniform linear
blend `a * hue + (1 - a) * pixel`. -/
def spec_flatTint (a : ℚ) (hue c : Color) : Color :=
  ⟨a * hue.r + (1 - a) * c.r, a * hue.g + (1 - a) * c.g,
    a * hue.b + (1 - a) * c.b⟩

/-- Counterexample to claim C6's blend-mode clause: the warmth stage at
`warmth = 50` maps the midtone pixel (100, 100, 100) exactly to the flat
tint of the warm hue at opacity 50/500 = 1/10, and it *brightens* that
midtone's red channel (100 → 115.5) — so the stage flatly tints; it does
not use a blend mode that darkens midtones rather than flatly tinting. -/
theorem warmthStage_flat_tint_counterexample :
    warmthStage 50 (fun _ _ => ⟨100, 100, 100⟩) 0 0 =
      spec_flatTint (50 / 500) warmHue ⟨100, 100, 100⟩ ∧
    (100 : ℚ) < (warmthStage 50 (fun _ _ => ⟨100, 100, 100⟩) 0 0).r := by
  constructor
  · show sourceOverFill 255 160 0 (50 / 500) ⟨100, 100, 100⟩ =
      spec_flatTint (50 / 500) warmHue ⟨100, 100, 100⟩
    simp only [sourceOverFill, spec_flatTint, warmHue]
    norm_num
  · show (100 : ℚ) < (sourceOverFill 255 160 0 (50 / 500) ⟨100, 100, 100⟩).r
    simp only [sourceOverFill]
    norm_num

/-- Claim C6 (amended): whenever `warmth > 0` the warmth stage composites
the fixed warm hue `rgb(255, 160, 0)` over every pixel of the frame with
normal source-over blending at opacity `warmth / 500` — a uniform flat
tint; whenever `warmth = 0` the stage leaves the frame unchanged. -/
theorem warmthStage_spec (warmth : ℚ) (frame : Frame) (qx qy : Int) :
    (warmth = 0 → warmthStage warmth frame qx qy = frame qx qy) ∧
    (0 < warmth → warmthStage warmth frame qx qy =
      spec_flatTint (warmth / 500) warmHue (frame qx qy)) := by
  constructor
  · intro h0
    simp [warmthStage, h0]
  · intro hpos
    simp only [warmthStage, if_pos hpos, sourceOverFill, spec_flatTint,
      warmHue]
    exact Color.ext (by ring) (by ring) (by ring)

/-- Witness for C6 (amended): at `warmth = 0` the stage is the identity on
a concrete pixel; at `warmth = 50` it equals the flat tint at opacity
1/10. -/
theorem warmthStage_spec_witness :
    warmthStage 0 (fun _ _ => ⟨10, 20, 30⟩) 3 4 = ⟨10, 20, 30⟩ ∧
    warmthStage 50 (fun _ _ => ⟨10, 20, 30⟩) 3 4 =
      spec_flatTint (50 / 500) warmHue ⟨10, 20, 30⟩ :=
  ⟨(warmthStage_spec 0 (fun _ _ => ⟨10, 20, 30⟩) 3 4).1 rfl,
   (warmthStage_spec 50 (fun _ _ => ⟨10, 20, 30⟩) 3 4).2 (by norm_num)⟩

/-! ## Claim C5 (batch abort on compositing failure; region-bound errors) -/

/-- Helper: the render loop fails with the first compositing error. -/
theorem aux_renderAll_error {β ε : Type} (composite : ImageFile → Except ε β)
    (e : ε) :
    ∀ (t1 : List ImageFile) (bad : ImageFile) (t2 : List ImageFile),
      (∀ i ∈ t1, ∃ b, composite i = Except.ok b) →
      composite bad = Except.error e →
      renderAll composite (t1 ++ bad :: t2) = Except.error e := by
  intro t1 bad t2
  induction t1 with
  | nil =>
    intro _ hbad
    simp only [List.nil_append, renderAll, hbad]
  | cons a t1 ih =>
    intro h hbad
    obtain ⟨b, hb⟩ := h a (by simp)
    simp only [List.cons_append, renderAll, hb, List.append_eq,
      ih (fun i hi => h i (List.mem_cons_of_mem a hi)) hbad]

/-- Claim C5 (amended): a compositing failure (the per-image render
rejecting, e.g. on a source decode or canvas conversion error) on any
single target aborts the entire batch — the exporter delivers neither an
archive nor any file and surfaces only the generic batch failure.  Invalid
region bounds during redaction, however, are *not* such a failure: a region
whose computed pixel width or height is not positive is skipped, leaving
the frame unchanged, and compositing proceeds. -/
theorem handleBatchDownload_abort_spec {β ε : Type} :
    (∀ (composite : ImageFile → Except ε β) (images : List ImageFile)
        (sel : List String) (t1 : List ImageFile) (bad : ImageFile)
        (t2 : List ImageFile) (e : ε),
      targetsOf images sel = t1 ++ bad :: t2 →
      (∀ i ∈ t1, ∃ b, composite i = Except.ok b) →
      composite bad = Except.error e →
      handleBatchDownload composite images sel = Delivery.failure) ∧
    (∀ (cw ch bs : Int) (frame : Frame) (box : BoundingBox),
      regionW box cw ≤ 0 ∨ regionH box ch ≤ 0 →
      redactRegion cw ch bs frame box = frame) := by
  constructor
  · intro composite images sel t1 bad t2 e htgt hok hbad
    have hren := aux_renderAll_error composite e t1 bad t2 hok hbad
    cases images with
    | nil =>
      rw [targetsOf] at htgt
      simp at htgt
    | cons a rest =>
      simp only [handleBatchDownload, List.isEmpty_cons, Bool.false_eq_true,
        if_false, htgt, hren]
  · intro cw ch bs frame box h
    rw [redactRegion]
    simp only [if_pos h]

/-- A frame used for concrete compositing runs. -/
def grayFrame : Frame := fun _ _ => ⟨120, 120, 120⟩

/-- A bounding box with inverted vertical bounds (`ymax < ymin`), whose
computed pixel height is negative. -/
def invertedBox : BoundingBox := ⟨900, 100, 100, 900⟩

/-- A sample image carrying the inverted box with privacy-blur enabled. -/
def imgBadRegion : ImageFile :=
  ⟨"2", "url_2", "purl_2", "b.jpg", "image/jpeg",
    { sampleAdj with privacyBlur := true }, some [invertedBox]⟩

/-- A compositor built from the modelled `processImageOnCanvas` pipeline
(identity browser primitives): it renders every image by running the stage
pipeline on `grayFrame` with that image's adjustments and cached regions,
and — like the source, which skips invalid regions and catches per-region
errors — never rejects because of region bounds. -/
def pipelineComposite (img : ImageFile) : Except Unit Frame :=
  Except.ok (processFrame (fun _ f => f) (fun _ _ f => f) (fun _ _ _ f => f)
    img.adjustments (img.privacyRegions.getD []) 1000 800 grayFrame)

/-- Counterexample to claim C5 as stated: in a 3-image batch whose second
image carries a region with invalid bounds (inverted, so its computed
height is negative) and privacy-blur enabled, compositing every image
through the modelled pipeline succeeds — the export yields an archive, not
the claimed batch abort — and the invalid region leaves the frame
untouched rather than raising a compositing failure. -/
theorem handleBatchDownload_abort_counterexample :
    handleBatchDownload pipelineComposite
        [imgPlain "1" "a.jpg", imgBadRegion, imgPlain "3" "c.jpg"] [] ≠
      Delivery.failure ∧
    redactRegion 1000 800 20 grayFrame invertedBox = grayFrame ∧
    regionH invertedBox 800 < 0 := by
  refine ⟨?_, ?_, ?_⟩
  · intro h
    exact Delivery.noConfusion h
  · rfl
  · decide

/-- Witness for C5 (amended): with a compositor that fails exactly on image
`2`, a 3-image batch delivers the generic failure; and the concrete
inverted region is skipped by the redaction stage. -/
theorem handleBatchDownload_abort_spec_witness :
    handleBatchDownload
        (fun i => if i.id == "2" then (Except.error () : Except Unit String)
          else Except.ok i.name)
        [imgPlain "1" "a.jpg", imgPlain "2" "b.jpg", imgPlain "3" "c.jpg"]
        [] = Delivery.failure ∧
    redactRegion 500 400 10 grayFrame invertedBox = grayFrame := by
  constructor
  · exact handleBatchDownload_abort_spec.1
      (fun i => if i.id == "2" then (Except.error () : Except Unit String)
        else Except.ok i.name)
      [imgPlain "1" "a.jpg", imgPlain "2" "b.jpg", imgPlain "3" "c.jpg"] []
      [imgPlain "1" "a.jpg"] (imgPlain "2" "b.jpg") [imgPlain "3" "c.jpg"]
      () (by decide)
      (by
        intro i hi
        simp only [List.mem_singleton] at hi
        subst hi
        exact ⟨"a.jpg", rfl⟩)
      rfl
  · exact (handleBatchDownload_abort_spec (β := Unit) (ε := Unit)).2
      500 400 10 grayFrame invertedBox (by right; decide)

/-! ## Claim C8 (watermark is the last stage, independent of tone filters) -/

/-- Claim C8: for an adjustment set with `warmth = 0`, no overlay image and
a nonempty watermark, the composited output agrees with the tone-filtered
(redacted) base everywhere outside the region `R` touched by the text
rasteriser — the only change past the filter stage is the bottom-right
text — and the whole pipeline factors as the text stage applied last, fed
only the watermark string and the canvas dimensions (never the tone
parameters), over the tone-filtered base. -/
theorem processFrame_watermark_last_spec
    (cssFilter : ToneParams → Frame → Frame)
    (drawOverlay : String → Adjustments → Frame → Frame)
    (drawText : String → Int → Int → Frame → Frame)
    (R : Int → Int → Prop) (adj : Adjustments) (regions : List BoundingBox)
    (cw ch : Int) (base : Frame) :
    adj.warmth = 0 → adj.overlayImage = none → adj.watermark ≠ "" →
    (∀ s f qx qy, ¬ R qx qy → drawText s cw ch f qx qy = f qx qy) →
    (∀ qx qy,
      processFrame cssFilter drawOverlay drawText adj regions cw ch base qx
          qy =
        drawText adj.watermark cw ch
          (cssFilter (toneOf adj) (redactStage adj regions cw ch base)) qx
          qy) ∧
    (∀ qx qy, ¬ R qx qy →
      processFrame cssFilter drawOverlay drawText adj regions cw ch base qx
          qy =
        cssFilter (toneOf adj) (redactStage adj regions cw ch base) qx
          qy) := by
  intro hwarm hover hmark hlocal
  have hpipe : processFrame cssFilter drawOverlay drawText adj regions cw ch
      base =
      drawText adj.watermark cw ch
        (cssFilter (toneOf adj) (redactStage adj regions cw ch base)) := by
    rw [processFrame, hover]
    simp only [hwarm, warmthStage, lt_irrefl, if_false, if_pos hmark]
  constructor
  · intro qx qy
    rw [hpipe]
  · intro qx qy hR
    rw [hpipe]
    exact hlocal adj.watermark _ qx qy hR

/-- Text rasteriser used by the C8 witness: paints white exactly at the
pixel (9, 9). -/
def dotText (_s : String) (_cw _ch : Int) (f : Frame) : Frame :=
  fun qx qy => if qx = 9 ∧ qy = 9 then ⟨255, 255, 255⟩ else f qx qy

/-- Green-extracting filter used by the C8 witness. -/
def greenFilter (_t : ToneParams) (f : Frame) : Frame :=
  fun qx qy => ⟨0, (f qx qy).g, 0⟩

/-- Witness for C8: with the dot rasteriser (touching only pixel (9, 9))
and the green-extracting filter, a watermark-only adjustment set leaves
pixel (0, 0) exactly at the tone-filtered base value, while the full
pipeline at (9, 9) is the rasteriser's output over the filtered base. -/
theorem processFrame_watermark_last_spec_witness :
    processFrame greenFilter (fun _ _ f => f) dotText
        { sampleAdj with watermark := "X" } [] 1000 800 grayFrame 0 0 =
      greenFilter (toneOf { sampleAdj with watermark := "X" })
        (redactStage { sampleAdj with watermark := "X" } [] 1000 800
          grayFrame) 0 0 ∧
    processFrame greenFilter (fun _ _ f => f) dotText
        { sampleAdj with watermark := "X" } [] 1000 800 grayFrame 9 9 =
      dotText "X" 1000 800
        (greenFilter (toneOf { sampleAdj with watermark := "X" })
          (redactStage { sampleAdj with watermark := "X" } [] 1000 800
            grayFrame)) 9 9 := by
  have h := processFrame_watermark_last_spec greenFilter (fun _ _ f => f)
    dotText (fun qx qy => qx = 9 ∧ qy = 9)
    { sampleAdj with watermark := "X" } [] 1000 800 grayFrame rfl rfl
    (by decide)
    (by
      intro s f qx qy hR
      exact if_neg hR)
  exact ⟨h.2 0 0 (by decide), h.1 9 9⟩

/-! ## QuotaCircuitBreaker (`App.tsx`): `isQuotaExhausted`,
`cooldownRemaining` and the auto-reset interval effect.  Times are JS
millisecond timestamps, modelled as integers. -/

/-- `const isQuotaExhausted = Date.now() < quotaCooldown;` -/
def isQuotaExhausted (quotaCooldown now : Int) : Bool :=
  decide (now < quotaCooldown)

/-- `const cooldownRemaining = Math.ceil((quotaCooldown - Date.now()) / 1000);`
Note there is no clamping in the source. -/
def cooldownRemaining (quotaCooldown now : Int) : Int :=
  ⌈((quotaCooldown - now : Int) : ℚ) / 1000⌉

/-- One tick of the auto-reset interval effect: when the effect is armed
(`quotaCooldown > 0`) and `Date.now() > quotaCooldown`, the breaker
timestamp is reset to 0; otherwise it is left alone. -/
def cooldownResetStep (quotaCooldown now : Int) : Int :=
  if 0 < quotaCooldown ∧ quotaCooldown < now then 0 else quotaCooldown

/-! ## Claim C7 (breaker display and self-reset) -/

/-- Counterexample to claim C7's clamping clause: with the breaker closed
(`quotaCooldown = 0`, its initial and post-reset value) at time 5000ms —
so `now ≥ cooldownUntil` — the computed remaining value is −5, not the
claimed clamp to 0 (the raw expression `Math.ceil((quotaCooldown −
Date.now()) / 1000)` is unclamped; the value merely stops being rendered
once the breaker is closed). -/
theorem cooldownRemaining_clamp_counterexample :
    (0 : Int) ≤ 5000 ∧ cooldownRemaining 0 5000 = -5 ∧
      cooldownRemaining 0 5000 ≠ 0 := by
  have h : cooldownRemaining 0 5000 = -5 := by
    rw [cooldownRemaining,
      show ((0 - 5000 : Int) : ℚ) / 1000 = ((-5 : Int) : ℚ) by norm_num]
    exact Int.ceil_intCast (-5)
  exact ⟨by norm_num, h, by rw [h]; decide⟩

/-- Claim C7 (amended): while the breaker is open (`now < cooldownUntil`)
the displayed remaining value is the ceiling of
`(cooldownUntil − now) / 1000`, and is at least 1; within the first second
after expiry the value is still 0; the breaker self-resets to closed with
no manual reset — `isOpen` is false whenever `now ≥ cooldownUntil`, and the
interval effect then clears the timestamp to 0 (keeping the breaker
closed).  Beyond one second after expiry the raw value goes negative
rather than clamping (see the counterexample), but it is only rendered
while the breaker is open. -/
theorem quotaCooldown_display_reset_spec (q now : Int) :
    (now < q →
      cooldownRemaining q now = ⌈((q - now : Int) : ℚ) / 1000⌉ ∧
        1 ≤ cooldownRemaining q now) ∧
    (q ≤ now → now < q + 1000 → cooldownRemaining q now = 0) ∧
    (q ≤ now → isQuotaExhausted q now = false) ∧
    (q < now → 0 < q →
      cooldownResetStep q now = 0 ∧
        isQuotaExhausted (cooldownResetStep q now) now = false) := by
  refine ⟨?_, ?_, ?_, ?_⟩
  · intro hopen
    have hpos : 0 < cooldownRemaining q now := by
      rw [cooldownRemaining]
      exact Int.ceil_pos.mpr
        (div_pos (by exact_mod_cast sub_pos.mpr hopen) (by norm_num))
    exact ⟨rfl, by omega⟩
  · intro h1 h2
    rw [cooldownRemaining, Int.ceil_eq_zero_iff, Set.mem_Ioc]
    constructor
    · show (-1 : ℚ) < ((q - now : Int) : ℚ) / 1000
      rw [neg_lt, ← neg_div, div_lt_one (by norm_num : (0 : ℚ) < 1000)]
      have h2' : (now : ℚ) < (q : ℚ) + 1000 := by exact_mod_cast h2
      push_cast
      linarith
    · show ((q - now : Int) : ℚ) / 1000 ≤ 0
      apply div_nonpos_of_nonpos_of_nonneg
      · exact_mod_cast sub_nonpos.mpr h1
      · norm_num
  · intro h
    simp [isQuotaExhausted, not_lt.mpr h]
  · intro h1 h2
    have hr : cooldownResetStep q now = 0 := by
      rw [cooldownResetStep, if_pos ⟨h2, h1⟩]
    refine ⟨hr, ?_⟩
    rw [hr]
    simp [isQuotaExhausted, not_lt.mpr (le_trans h2.le h1.le)]

/-- Witness for C7 (amended): at `cooldownUntil = 60000`: 1500ms in, the
display shows 59s (≥ 1); at 60500ms (within a second of expiry) it shows
0 and the breaker reads closed; at 61000ms the interval effect clears the
timestamp and the breaker stays closed. -/
theorem quotaCooldown_display_reset_spec_witness :
    1 ≤ cooldownRemaining 60000 1500 ∧
    cooldownRemaining 60000 60500 = 0 ∧
    isQuotaExhausted 60000 60500 = false ∧
    cooldownResetStep 60000 61000 = 0 := by
  refine ⟨((quotaCooldown_display_reset_spec 60000 1500).1 (by norm_num)).2,
    (quotaCooldown_display_reset_spec 60000 60500).2.1 (by norm_num)
      (by norm_num),
    (quotaCooldown_display_reset_spec 60000 60500).2.2.1 (by norm_num),
    ((quotaCooldown_display_reset_spec 60000 61000).2.2.2 (by norm_num)
      (by norm_num)).1⟩

/-! ## `updateAdjustments` (`App.tsx`) -/

/-- The core adjustment update: replace the adjustment set of every
currently selected image (`prevImages.map(img =>
selectedImageIds.has(img.id) ? { ...img, adjustments: newAdj } : img)`). -/
def updateAdjustments (selectedIds : List String) (newAdj : Adjustments)
    (images : List ImageFile) : List ImageFile :=
  images.map fun img =>
    if selectedIds.contains img.id then { img with adjustments := newAdj }
    else img

/-! ## Claim C9 (adjustment updates only replace `adjustments`) -/

/-- Claim C9: an adjustment update (privacy-blur toggles included) maps the
image list pointwise; every image keeps its `id`, `originalUrl`,
`previewUrl`, `name`, `type` and — in particular — its `privacyRegions`
(an existing empty or non-empty detection result is never reset to
absent); a selected image gets exactly the new adjustment set, and an
unselected image is unchanged entirely. -/
theorem updateAdjustments_frame_spec (sel : List String)
    (newAdj : Adjustments) (images : List ImageFile) :
    List.Forall₂
      (fun img img' : ImageFile =>
        img'.id = img.id ∧ img'.originalUrl = img.originalUrl ∧
        img'.previewUrl = img.previewUrl ∧ img'.name = img.name ∧
        img'.type = img.type ∧ img'.privacyRegions = img.privacyRegions ∧
        (sel.contains img.id = true → img'.adjustments = newAdj) ∧
        (sel.contains img.id = false → img' = img))
      images (updateAdjustments sel newAdj images) := by
  induction images with
  | nil => exact List.Forall₂.nil
  | cons img rest ih =>
    refine List.Forall₂.cons ?_ ih
    by_cases h : img.id ∈ sel
    · have hb : sel.contains img.id = true := by simpa using h
      simp [updateAdjustments, h, hb]
    · have hb : sel.contains img.id = false := by simpa using h
      simp [updateAdjustments, h, hb]

/-- Witness for C9: a concrete two-image list (one selected, one not), the
selected image carrying a non-empty detection result that must survive a
privacy-blur toggle. -/
theorem updateAdjustments_frame_spec_witness :
    List.Forall₂
      (fun img img' : ImageFile =>
        img'.id = img.id ∧ img'.originalUrl = img.originalUrl ∧
        img'.previewUrl = img.previewUrl ∧ img'.name = img.name ∧
        img'.type = img.type ∧ img'.privacyRegions = img.privacyRegions ∧
        (["1"].contains img.id = true →
          img'.adjustments = { sampleAdj with privacyBlur := true }) ∧
        (["1"].contains img.id = false → img' = img))
      [{ imgPlain "1" "a.jpg" with privacyRegions := some [] },
        imgPlain "2" "b.jpg"]
      (updateAdjustments ["1"] { sampleAdj with privacyBlur := true }
        [{ imgPlain "1" "a.jpg" with privacyRegions := some [] },
          imgPlain "2" "b.jpg"]) :=
  updateAdjustments_frame_spec ["1"] { sampleAdj with privacyBlur := true }
    [{ imgPlain "1" "a.jpg" with privacyRegions := some [] },
      imgPlain "2" "b.jpg"]

/-! ## Claim C10 (missing API key: empty-set result stored as success) -/

/-- `detectPrivacyObjects` (`geminiService.ts`): with no API key configured
(`getAiClient()` returns null) it resolves immediately with `[]` — a
success — without invoking the remote call at all; with a key it runs the
remote operation through `retryWithBackoff`, rethrows `GeminiQuotaError`,
and swallows any other failure into a `null` result. -/
def detectPrivacyObjects (hasKey : Bool)
    (remote : Nat → Except JsError (List BoundingBox)) : DetectOutcome :=
  if hasKey then
    match (retryWithBackoff remote 2 2000 0).result with
    | RetryResult.ok bs => DetectOutcome.boxes bs
    | RetryResult.quotaError => DetectOutcome.quotaError
    | RetryResult.err _ => DetectOutcome.nullResult
  else DetectOutcome.boxes []

/-- Helper: `setRegions` maps each image to itself or to itself with
`privacyRegions := some boxes`. -/
theorem aux_setRegions_mem {images : List ImageFile} {id : String}
    {boxes : List BoundingBox} {img : ImageFile}
    (h : img ∈ setRegions images id boxes) :
    ∃ orig ∈ images, img = orig ∨
      img = { orig with privacyRegions := some boxes } := by
  obtain ⟨orig, ho, he⟩ := List.mem_map.mp h
  refine ⟨orig, ho, ?_⟩
  by_cases hid : orig.id == id
  · right
    rw [← he]
    simp [hid]
  · left
    rw [← he]
    simp [hid]

/-- Helper: the property "every image with this id has the empty-set
result" is preserved by any `setRegions` with empty boxes and established
for the id being set. -/
theorem aux_setRegions_clean {images : List ImageFile} {j k : String}
    (h : ∀ img ∈ images, img.id = j → img.privacyRegions = some []) :
    ∀ img ∈ setRegions images k [], img.id = j →
      img.privacyRegions = some [] := by
  intro img hm hj
  obtain ⟨orig, ho, hcase⟩ := aux_setRegions_mem hm
  rcases hcase with h1 | h1
  · rw [h1]
    exact h orig ho (by rw [← h1]; exact hj)
  · rw [h1]

/-- Helper: `setRegions` with empty boxes makes every image carrying the
target id clean. -/
theorem aux_setRegions_sets {images : List ImageFile} {k : String} :
    ∀ img ∈ setRegions images k [], img.id = k →
      img.privacyRegions = some [] := by
  intro img hm hk
  obtain ⟨orig, ho, he⟩ := List.mem_map.mp hm
  by_cases hid : orig.id == k
  · rw [← he]
    simp [hid]
  · exfalso
    rw [← he] at hk
    rw [if_neg hid] at hk
    exact hid (by simp [hk])

/-- Helper: a run whose detection oracle always returns the empty box set
preserves per-id cleanliness. -/
theorem aux_runQueue_clean_preserved
    (remote : Nat → Except JsError (List BoundingBox)) (now : Int)
    (j : String) :
    ∀ (queue : List ImageFile) (st : SchedState),
      st.quotaCooldown ≤ now →
      (∀ img ∈ st.images, img.id = j → img.privacyRegions = some []) →
      ∀ img ∈ (runQueue (fun _ => detectPrivacyObjects false remote) now
          queue st).images,
        img.id = j → img.privacyRegions = some [] := by
  intro queue
  induction queue with
  | nil => exact fun st _ h => h
  | cons a rest ih =>
    intro st hcool h
    simp only [runQueue, detectPrivacyObjects, if_false,
      not_lt.mpr hcool, Bool.false_eq_true]
    exact ih ⟨setRegions st.images a.id [], st.quotaCooldown⟩ hcool
      (aux_setRegions_clean h)

/-- Claim C10: with no API key, `detectPrivacyObjects` resolves with the
empty region list as a success no matter what the remote operation would
have done (it is never contacted); a scheduler run over any candidate
queue therefore stores the empty-set ("scan clean") result on every
processed candidate, and afterwards no image with a processed id is ever
selected as a detection candidate again — even though no detection was
performed. -/
theorem detect_noKey_clean_spec :
    (∀ remote, detectPrivacyObjects false remote = DetectOutcome.boxes []) ∧
    (∀ (remote : Nat → Except JsError (List BoundingBox)) (now : Int)
        (st : SchedState) (queue : List ImageFile) (sel : List String),
      st.quotaCooldown ≤ now →
      (∀ img ∈ (runQueue (fun _ => detectPrivacyObjects false remote) now
          queue st).images,
        img.id ∈ queue.map ImageFile.id → img.privacyRegions = some []) ∧
      (∀ img ∈ needsDetection sel
          (runQueue (fun _ => detectPrivacyObjects false remote) now queue
            st).images,
        img.id ∉ queue.map ImageFile.id)) := by
  constructor
  · intro remote
    rfl
  · intro remote now st queue sel hcool
    have hd : detectPrivacyObjects false remote = DetectOutcome.boxes [] :=
      rfl
    have hgen : ∀ (qu : List ImageFile) (s : SchedState),
        s.quotaCooldown ≤ now →
        ∀ img ∈ (runQueue (fun _ => detectPrivacyObjects false remote) now
            qu s).images,
          img.id ∈ qu.map ImageFile.id → img.privacyRegions = some [] := by
      intro qu
      induction qu with
      | nil =>
        intro s _ img _ hq
        simp at hq
      | cons c rest ih =>
        intro s hc img hm hq
        simp only [runQueue, hd, not_lt.mpr hc, if_false] at hm
        rcases List.mem_cons.mp hq with hceq | hrest
        · exact aux_runQueue_clean_preserved remote now c.id rest
            ⟨setRegions s.images c.id [], s.quotaCooldown⟩ hc
            aux_setRegions_sets img hm hceq
        · exact ih ⟨setRegions s.images c.id [], s.quotaCooldown⟩ hc img hm
            hrest
    have hclean := hgen queue st hcool
    refine ⟨hclean, ?_⟩
    intro img hm hq
    have h1 := (List.mem_filter.mp hm).1
    have h2 := (List.mem_filter.mp hm).2
    simp only [Bool.and_eq_true, Option.isNone_iff_eq_none,
      decide_eq_true_eq] at h2
    have := hclean img h1 hq
    rw [h2.2] at this
    exact Option.noConfusion this

/-- Witness for C10: a concrete queue of two keyless candidates over a
matching state — afterwards both carry the empty-set result and neither is
a candidate any more. -/
theorem detect_noKey_clean_spec_witness :
    detectPrivacyObjects false (fun _ => Except.error ⟨some 429, none, ""⟩)
      = DetectOutcome.boxes [] ∧
    (∀ img ∈ (runQueue
        (fun _ => detectPrivacyObjects false
          (fun _ => Except.error ⟨some 429, none, ""⟩)) 5000
        [mkImg "a" "a.jpg", mkImg "b" "b.jpg"]
        ⟨[mkImg "a" "a.jpg", mkImg "b" "b.jpg"], 0⟩).images,
      img.id ∈ ([mkImg "a" "a.jpg", mkImg "b" "b.jpg"].map ImageFile.id) →
        img.privacyRegions = some []) ∧
    (∀ img ∈ needsDetection ["a", "b"]
        (runQueue
          (fun _ => detectPrivacyObjects false
            (fun _ => Except.error ⟨some 429, none, ""⟩)) 5000
          [mkImg "a" "a.jpg", mkImg "b" "b.jpg"]
          ⟨[mkImg "a" "a.jpg", mkImg "b" "b.jpg"], 0⟩).images,
      img.id ∉ ([mkImg "a" "a.jpg", mkImg "b" "b.jpg"].map ImageFile.id)) :=
  ⟨detect_noKey_clean_spec.1 (fun _ => Except.error ⟨some 429, none, ""⟩),
    (detect_noKey_clean_spec.2 (fun _ => Except.error ⟨some 429, none, ""⟩)
      5000 ⟨[mkImg "a" "a.jpg", mkImg "b" "b.jpg"], 0⟩
      [mkImg "a" "a.jpg", mkImg "b" "b.jpg"] ["a", "b"] (by decide)).1,
    (detect_noKey_clean_spec.2 (fun _ => Except.error ⟨some 429, none, ""⟩)
      5000 ⟨[mkImg "a" "a.jpg", mkImg "b" "b.jpg"], 0⟩
      [mkImg "a" "a.jpg", mkImg "b" "b.jpg"] ["a", "b"] (by decide)).2⟩

end FotoEdition
